/-
  Verification of the p44_ws2812 WS2812-over-SPI LED driver
  (plan44/ws2812_spi_sparkcore, src/ws2812_spi.cpp).

  Shallow embedding: the C++ class p44_ws2812 becomes a Lean structure,
  each member function a Lean function on that structure.  Machine
  integers are modelled as Nat with explicit truncation: uint16_t
  parameters/fields are reduced mod 65536 and byte (uint8_t) parameters
  mod 256 at the points where the C conversions happen.  The one place
  where a C computation can go negative (ledsPerRow-1-aX inside
  ledIndexFromXY, computed in int and then converted back to uint16_t)
  is modelled over Int followed by emod 65536.
-/
import Mathlib

namespace WS2812

/-- The 32-entry PWM table `pwmTable` (ws2812_spi.cpp line 89):
    converts a 5-bit stored brightness level to an 8-bit PWM duty value. -/
def pwmTable : List Nat :=
  [0, 1, 1, 2, 3, 4, 6, 7, 9, 10, 13, 15, 18, 21, 24, 28,
   33, 38, 44, 50, 58, 67, 77, 88, 101, 115, 132, 150, 172, 196, 224, 255]

/-- `pwmTable[l]` as the C array read performs it; out-of-range reads cannot
    occur in the program (levels are 5-bit fields), we totalise with 0. -/
def pwmLookup (l : Nat) : Nat := pwmTable.getD l 0

/-- The packed RGBPixel struct: three 5-bit channels. -/
structure RGBPixel where
  red : Nat
  green : Nat
  blue : Nat
deriving DecidableEq, Repr

/-- The all-zero pixel, the state after the constructor's memset. -/
def zeroPixel : RGBPixel := ⟨0, 0, 0⟩

/-- The p44_ws2812 driver object: uint16_t numLeds, pixel buffer,
    uint16_t ledsPerRow, and the two direction flags. -/
structure p44_ws2812 where
  numLeds : Nat
  pixelBuffer : List RGBPixel
  ledsPerRow : Nat
  xReversed : Bool
  alternating : Bool
deriving DecidableEq, Repr

namespace p44_ws2812

/-- The constructor `p44_ws2812::p44_ws2812` (lines 91-104): uint16_t
    parameters are truncated at the call boundary; a 0 aLedsPerRow is
    replaced by the LED count; the buffer is allocated with numLeds
    entries and memset to zero. -/
def construct (aNumLeds aLedsPerRow : Nat) (aXReversed aAlternating : Bool) :
    p44_ws2812 :=
  let n := aNumLeds % 65536
  let r := aLedsPerRow % 65536
  { numLeds := n
    pixelBuffer := List.replicate n zeroPixel
    ledsPerRow := if r = 0 then n else r
    xReversed := aXReversed
    alternating := aAlternating }

/-- `ledIndexFromXY` (lines 162-176).  uint16_t inputs are truncated;
    `ledindex = aY*ledsPerRow` is a uint16_t assignment (mod 65536);
    the reversed branch adds the int value `ledsPerRow-1-aX` (which may
    be negative) and converts back to uint16_t, i.e. emod 65536 on Int. -/
def ledIndexFromXY (d : p44_ws2812) (aX aY : Nat) : Nat :=
  let x := aX % 65536
  let y := aY % 65536
  let base := (y * d.ledsPerRow) % 65536
  let reversed := if d.alternating && y % 2 = 1 then !d.xReversed else d.xReversed
  if reversed then
    Int.toNat (((base : Int) + (d.ledsPerRow : Int) - 1 - (x : Int)) % 65536)
  else
    (base + x) % 65536

/-- `setColorXY` (lines 187-196): resolve the physical index, return
    unchanged when it is out of range, otherwise store the three byte
    channels each shifted right by 3 into the 5-bit fields. -/
def setColorXY (d : p44_ws2812) (aX aY aRed aGreen aBlue : Nat) : p44_ws2812 :=
  let ledindex := d.ledIndexFromXY aX aY
  let p : RGBPixel := ⟨aRed % 256 / 8, aGreen % 256 / 8, aBlue % 256 / 8⟩
  if d.numLeds ≤ ledindex then d
  else { d with pixelBuffer := d.pixelBuffer.set ledindex p }

/-- `setColor` (lines 179-184): row-major decomposition of the flat LED
    number, then delegation to setColorXY. -/
def setColor (d : p44_ws2812) (aLedNumber aRed aGreen aBlue : Nat) : p44_ws2812 :=
  let n := aLedNumber % 65536
  let y := n / d.ledsPerRow
  let x := n % d.ledsPerRow
  d.setColorXY x y aRed aGreen aBlue

/-- `setColorDimmedXY` (lines 207-210): pre-scale each channel by
    `(channel*brightness) >> 8` (int arithmetic on promoted bytes,
    no overflow), then delegate to setColorXY. -/
def setColorDimmedXY (d : p44_ws2812) (aX aY aRed aGreen aBlue aBrightness : Nat) :
    p44_ws2812 :=
  d.setColorXY aX aY (aRed % 256 * (aBrightness % 256) / 256)
    (aGreen % 256 * (aBrightness % 256) / 256)
    (aBlue % 256 * (aBrightness % 256) / 256)

/-- `setColorDimmed` (lines 199-204): row-major decomposition, then
    delegation to setColorDimmedXY. -/
def setColorDimmed (d : p44_ws2812) (aLedNumber aRed aGreen aBlue aBrightness : Nat) :
    p44_ws2812 :=
  let n := aLedNumber % 65536
  let y := n / d.ledsPerRow
  let x := n % d.ledsPerRow
  d.setColorDimmedXY x y aRed aGreen aBlue aBrightness

/-- `getColorXY` (lines 221-230): the C function writes through byte
    references only when the index is in range; we model the references
    by passing the current values of the output parameters in and
    returning their (possibly updated) values. -/
def getColorXY (d : p44_ws2812) (aX aY aRed aGreen aBlue : Nat) :
    Nat × Nat × Nat :=
  let ledindex := d.ledIndexFromXY aX aY
  if d.numLeds ≤ ledindex then (aRed, aGreen, aBlue)
  else
    let p := d.pixelBuffer.getD ledindex zeroPixel
    (p.red % 32 * 8, p.green % 32 * 8, p.blue % 32 * 8)

/-- `getColor` (lines 213-218): row-major decomposition, then delegation
    to getColorXY. -/
def getColor (d : p44_ws2812) (aLedNumber aRed aGreen aBlue : Nat) :
    Nat × Nat × Nat :=
  let n := aLedNumber % 65536
  let y := n / d.ledsPerRow
  let x := n % d.ledsPerRow
  d.getColorXY x y aRed aGreen aBlue

/-- One SPI byte of `show` (lines 141-144 etc.): test bit 7 of the
    running byte, emit 0x7E for a 1 bit and 0x70 for a 0 bit. -/
def spiByteFor (b : Nat) : Nat := if b.testBit 7 then 0x7E else 0x70

/-- The inner 8-iteration loop of `show`: emit a byte per bit, shifting
    the byte left (uint8_t, so mod 256) after each emission. -/
def encodeBits : Nat → Nat → List Nat
  | 0, _ => []
  | j + 1, b => spiByteFor b :: encodeBits j (b * 2 % 256)

/-- The per-pixel body of `show` (lines 136-156): green, red, blue, each
    looked up in pwmTable and expanded to 8 SPI bytes. -/
def showPixel (p : RGBPixel) : List Nat :=
  encodeBits 8 (pwmLookup (p.green % 32)) ++
  encodeBits 8 (pwmLookup (p.red % 32)) ++
  encodeBits 8 (pwmLookup (p.blue % 32))

/-- `show` (lines 128-159): the sequence of bytes handed to SPI.transfer,
    walking pixelBufferP[0..numLeds-1] in order. -/
def showSPI (d : p44_ws2812) : List Nat :=
  ((List.range d.numLeds).map
    (fun i => showPixel (d.pixelBuffer.getD i zeroPixel))).flatten

end p44_ws2812

set_option maxRecDepth 8192

/-- Spec-side description of the bitstream for one duty byte: 8 SPI bytes,
    most-significant bit first, 0x7E for a 1 bit, 0x70 for a 0 bit. -/
def msbBytes (b : Nat) : List Nat :=
  (List.range 8).map (fun j => if b.testBit (7 - j) then 0x7E else 0x70)

/-- The spec's serpentine scenario: count=4, rowLength=2,
    reversed=false, alternating=true, followed by the four setColorXY
    calls of §8. -/
def scenarioDriver : p44_ws2812 :=
  ((((p44_ws2812.construct 4 2 false true).setColorXY 0 0 255 0 0).setColorXY
      1 0 0 255 0).setColorXY 0 1 0 0 255).setColorXY 1 1 255 255 0

/-- The stored triplets of the scenario driver, read back (5-bit fields
    re-expanded by 3 bits) in physical transmission order 0..3. -/
def scenarioReadback : List (Nat × Nat × Nat) :=
  scenarioDriver.pixelBuffer.map
    (fun p => (p.red % 32 * 8, p.green % 32 * 8, p.blue % 32 * 8))

/-- The shift-and-test loop of `show` produces exactly the MSB-first
    expansion for every byte value. -/
theorem encodeBits_eq_msbBytes : ∀ b < 256, p44_ws2812.encodeBits 8 b = msbBytes b := by
  decide

/-- Every pwmTable entry fits in a byte. -/
theorem pwmLookup_lt_256 (l : Nat) : pwmLookup (l % 32) < 256 := by
  have h : ∀ m < 32, pwmLookup m < 256 := by decide
  exact h _ (Nat.mod_lt _ (by norm_num))

/-- Bounded monotonicity of the PWM table. -/
theorem pwm_mono : ∀ j < 32, ∀ i < 32, i ≤ j → pwmLookup i ≤ pwmLookup j := by
  decide

/-- Storing then re-expanding a byte keeps exactly its upper 5 bits. -/
theorem div8_mul8_land (r : Nat) (h : r < 256) : r / 8 * 8 = r &&& 0xF8 := by
  have hall : ∀ m < 256, m / 8 * 8 = m &&& 0xF8 := by decide
  exact hall r h

/-- The inner loop of `show` always emits one byte per bit. -/
theorem encodeBits_length (j b : Nat) : (p44_ws2812.encodeBits j b).length = j := by
  induction j generalizing b with
  | zero => rfl
  | succ k ih => simp [p44_ws2812.encodeBits, ih]

/-- Each pixel contributes 3 * 8 SPI bytes. -/
theorem showPixel_length (p : RGBPixel) : (p44_ws2812.showPixel p).length = 24 := by
  simp [p44_ws2812.showPixel, encodeBits_length]

/-- Flattening n chunks of 24 bytes yields n * 24 bytes. -/
theorem flatten_const_length (f : Nat → List Nat) (hf : ∀ i, (f i).length = 24) :
    ∀ n, (((List.range n).map f).flatten).length = n * 24 := by
  intro n
  induction n with
  | zero => rfl
  | succ k ih =>
    rw [List.range_succ, List.map_append, List.flatten_append]
    simp [ih, hf]
    omega

open p44_ws2812

/-- C1: for every driver with N pixels, show() issues exactly N * 3 * 8
    serial byte transfers, walking the pixel buffer in physical index
    order 0..N-1 and, for each pixel, emitting the channels in the order
    green, red, blue; each channel's pwmTable duty value is emitted as 8
    bytes, most-significant bit first, a 1 bit as 0x7E and a 0 bit as
    0x70. -/
theorem show_emits_grb_msb_first (d : p44_ws2812) :
    (showSPI d).length = d.numLeds * 3 * 8 ∧
    showSPI d = ((List.range d.numLeds).map (fun i =>
      let p := d.pixelBuffer.getD i zeroPixel
      msbBytes (pwmLookup (p.green % 32)) ++
      msbBytes (pwmLookup (p.red % 32)) ++
      msbBytes (pwmLookup (p.blue % 32)))).flatten := by
  constructor
  · have h := flatten_const_length
      (fun i => showPixel (d.pixelBuffer.getD i zeroPixel))
      (fun i => showPixel_length (d.pixelBuffer.getD i zeroPixel)) d.numLeds
    simp only [showSPI]
    rw [h]
    omega
  · simp only [showSPI]
    have hfun : (fun i => showPixel (d.pixelBuffer.getD i zeroPixel)) =
        (fun i =>
          let p := d.pixelBuffer.getD i zeroPixel
          msbBytes (pwmLookup (p.green % 32)) ++
          msbBytes (pwmLookup (p.red % 32)) ++
          msbBytes (pwmLookup (p.blue % 32))) := by
      funext i
      simp only [showPixel]
      rw [encodeBits_eq_msbBytes _ (pwmLookup_lt_256 _),
          encodeBits_eq_msbBytes _ (pwmLookup_lt_256 _),
          encodeBits_eq_msbBytes _ (pwmLookup_lt_256 _)]
    rw [hfun]

/-- Replacing only the pixel buffer leaves the index computation
    unchanged: ledIndexFromXY reads layout fields only. -/
theorem ledIndexFromXY_update (d : p44_ws2812) (l : List RGBPixel) (x y : Nat) :
    ({ d with pixelBuffer := l } : p44_ws2812).ledIndexFromXY x y =
      d.ledIndexFromXY x y := rfl

/-- C2: for every valid LED index i (one whose resolved physical index is
    in range) and every 8-bit triplet (r,g,b), setColor(i,r,g,b) followed
    by getColor(i) yields exactly (r &&& 0xF8, g &&& 0xF8, b &&& 0xF8):
    the round trip loses exactly the 3 low bits of each channel. -/
theorem setColor_getColor_roundtrip (d : p44_ws2812) (i r g b a0 g0 b0 : Nat)
    (hi : i < 65536) (hr : r < 256) (hg : g < 256) (hb : b < 256)
    (hlen : d.pixelBuffer.length = d.numLeds)
    (hvalid : d.ledIndexFromXY (i % d.ledsPerRow) (i / d.ledsPerRow) < d.numLeds) :
    (d.setColor i r g b).getColor i a0 g0 b0 =
      (r &&& 0xF8, g &&& 0xF8, b &&& 0xF8) := by
  have hi' : i % 65536 = i := Nat.mod_eq_of_lt hi
  have hnle : ¬ d.numLeds ≤ d.ledIndexFromXY (i % d.ledsPerRow) (i / d.ledsPerRow) :=
    not_le.mpr hvalid
  simp only [p44_ws2812.setColor, p44_ws2812.setColorXY, hi']
  rw [if_neg hnle]
  simp only [p44_ws2812.getColor, p44_ws2812.getColorXY, hi', ledIndexFromXY_update]
  rw [if_neg hnle]
  have hidx : d.ledIndexFromXY (i % d.ledsPerRow) (i / d.ledsPerRow) <
      (d.pixelBuffer.set (d.ledIndexFromXY (i % d.ledsPerRow) (i / d.ledsPerRow))
        (⟨r % 256 / 8, g % 256 / 8, b % 256 / 8⟩ : RGBPixel)).length := by
    rw [List.length_set, hlen]; exact hvalid
  rw [List.getD_eq_getElem _ _ hidx, List.getElem_set_self]
  simp only [Nat.mod_eq_of_lt hr, Nat.mod_eq_of_lt hg, Nat.mod_eq_of_lt hb]
  have h32r : r / 8 % 32 = r / 8 := Nat.mod_eq_of_lt (by omega)
  have h32g : g / 8 % 32 = g / 8 := Nat.mod_eq_of_lt (by omega)
  have h32b : b / 8 % 32 = b / 8 := Nat.mod_eq_of_lt (by omega)
  simp only [h32r, h32g, h32b]
  rw [div8_mul8_land r hr, div8_mul8_land g hg, div8_mul8_land b hb]

/-- Witness for C2 at a concrete driver and input. -/
theorem setColor_getColor_roundtrip_witness :
    ((construct 4 2 false false).setColor 1 7 250 255).getColor 1 9 9 9 =
      (7 &&& 0xF8, 250 &&& 0xF8, 255 &&& 0xF8) :=
  setColor_getColor_roundtrip (construct 4 2 false false) 1 7 250 255 9 9 9
    (by decide) (by decide) (by decide) (by decide) (by decide) (by decide)

/-- C3: ledIndexFromXY computes base = y*rowLength; the row direction is
    the configured reversed flag, inverted when alternating is set and y
    is odd; a reversed row yields base + (rowLength-1-x), otherwise
    base + x (proved on the domain where the uint16_t arithmetic does
    not wrap: x < rowLength and y*rowLength + rowLength ≤ 65536).  In
    particular, with rowLength=5, alternating=true, reversed=false:
    (0,0)↦0, (4,0)↦4, (0,1)↦9, (4,1)↦5. -/
theorem ledIndexFromXY_formula (d : p44_ws2812) (x y : Nat)
    (hx : x < d.ledsPerRow) (hno : y * d.ledsPerRow + d.ledsPerRow ≤ 65536) :
    d.ledIndexFromXY x y =
      (if xor d.xReversed (d.alternating && (y % 2 == 1))
       then y * d.ledsPerRow + (d.ledsPerRow - 1 - x)
       else y * d.ledsPerRow + x) ∧
    (construct 10 5 false true).ledIndexFromXY 0 0 = 0 ∧
    (construct 10 5 false true).ledIndexFromXY 4 0 = 4 ∧
    (construct 10 5 false true).ledIndexFromXY 0 1 = 9 ∧
    (construct 10 5 false true).ledIndexFromXY 4 1 = 5 := by
  refine ⟨?_, by decide, by decide, by decide, by decide⟩
  have hL : 0 < d.ledsPerRow := Nat.pos_of_ne_zero (by omega)
  have hL16 : d.ledsPerRow ≤ 65536 := by omega
  have hyL : y * d.ledsPerRow < 65536 := by omega
  have hy : y < 65536 := by
    have := Nat.le_mul_of_pos_right y hL
    omega
  have hx16 : x < 65536 := by omega
  simp only [p44_ws2812.ledIndexFromXY, Nat.mod_eq_of_lt hy, Nat.mod_eq_of_lt hx16,
    Nat.mod_eq_of_lt hyL]
  rcases Nat.mod_two_eq_zero_or_one y with h2 | h2 <;>
    cases ha : d.alternating <;> cases hr : d.xReversed <;>
      simp only [h2, Bool.true_and, Bool.false_and, Bool.not_true, Bool.not_false,
        Bool.xor_false, Bool.xor_true, if_true, if_false, decide_True, decide_False,
        Bool.and_true, Bool.and_false, beq_iff_eq] <;>
      simp <;> omega

/-- Witness for C3 at the serpentine 5-wide driver, x=2, y=1. -/
theorem ledIndexFromXY_formula_witness :
    (construct 10 5 false true).ledIndexFromXY 2 1 =
      (if xor (construct 10 5 false true).xReversed
          ((construct 10 5 false true).alternating && ((1 : Nat) % 2 == 1))
       then 1 * (construct 10 5 false true).ledsPerRow +
            ((construct 10 5 false true).ledsPerRow - 1 - 2)
       else 1 * (construct 10 5 false true).ledsPerRow + 2) :=
  (ledIndexFromXY_formula (construct 10 5 false true) 2 1 (by decide) (by decide)).1

/-- C4: for every out-of-range LED index or coordinate (resolved
    physical index ≥ LED count), setColorXY/setColor leave the driver
    completely unchanged and getColorXY/getColor leave their output
    parameters unmodified; all four calls return normally (the functions
    are total), signalling nothing. -/
theorem out_of_range_noop (d : p44_ws2812) (x y n r g b a0 g0 b0 : Nat)
    (hxy : d.numLeds ≤ d.ledIndexFromXY x y)
    (hn : d.numLeds ≤
      d.ledIndexFromXY (n % 65536 % d.ledsPerRow) (n % 65536 / d.ledsPerRow)) :
    d.setColorXY x y r g b = d ∧
    d.getColorXY x y a0 g0 b0 = (a0, g0, b0) ∧
    d.setColor n r g b = d ∧
    d.getColor n a0 g0 b0 = (a0, g0, b0) := by
  refine ⟨?_, ?_, ?_, ?_⟩
  · simp only [p44_ws2812.setColorXY]
    rw [if_pos hxy]
  · simp only [p44_ws2812.getColorXY]
    rw [if_pos hxy]
  · simp only [p44_ws2812.setColor, p44_ws2812.setColorXY]
    rw [if_pos hn]
  · simp only [p44_ws2812.getColor, p44_ws2812.getColorXY]
    rw [if_pos hn]

/-- Witness for C4: a 4-LED, 2-per-row driver with coordinate (1,2) and
    flat index 5, both resolving to physical index 5 ≥ 4. -/
theorem out_of_range_noop_witness :
    (construct 4 2 false false).setColorXY 1 2 9 9 9 = construct 4 2 false false ∧
    (construct 4 2 false false).getColorXY 1 2 7 8 9 = (7, 8, 9) ∧
    (construct 4 2 false false).setColor 5 9 9 9 = construct 4 2 false false ∧
    (construct 4 2 false false).getColor 5 7 8 9 = (7, 8, 9) :=
  out_of_range_noop (construct 4 2 false false) 1 2 5 9 9 9 7 8 9
    (by decide) (by decide)

/-- C5 counterexample: in the serpentine scenario the physical read-back
    is [(248,0,0), (0,248,0), (248,248,0), (0,0,248)], not the claimed
    list with (255,255,0) at physical index 2 — the 5-bit storage turns
    the (255,255,0) write into (248,248,0) on read-back. -/
theorem scenario_readback_ne_claimed :
    scenarioReadback ≠ [(248, 0, 0), (0, 248, 0), (255, 255, 0), (0, 0, 248)] := by
  decide

/-- C5 (amended): in the serpentine scenario the stored triplets read
    back in physical transmission order 0..3 are
    [(248,0,0), (0,248,0), (248,248,0), (0,0,248)]. -/
theorem scenario_readback_correct :
    scenarioReadback = [(248, 0, 0), (0, 248, 0), (248, 248, 0), (0, 0, 248)] := by
  decide

/-- C6: the flat-index operations setColor/setColorDimmed/getColor first
    decompose the LED number row-major (y = n / rowLength,
    x = n % rowLength, independent of the direction flags) and re-apply
    ledIndexFromXY; the composition is the identity on physical indices
    when reversed = alternating = false, and with a direction flag
    active the flat number can differ from the physical index (witnessed
    at rowLength=5, alternating=true, n=5, which addresses index 9). -/
theorem flat_ops_row_major (d : p44_ws2812) (n r g b br a0 g0 b0 : Nat)
    (hn : n < 65536) (hL : 0 < d.ledsPerRow) :
    d.setColor n r g b = d.setColorXY (n % d.ledsPerRow) (n / d.ledsPerRow) r g b ∧
    d.setColorDimmed n r g b br =
      d.setColorDimmedXY (n % d.ledsPerRow) (n / d.ledsPerRow) r g b br ∧
    d.getColor n a0 g0 b0 =
      d.getColorXY (n % d.ledsPerRow) (n / d.ledsPerRow) a0 g0 b0 ∧
    (d.xReversed = false → d.alternating = false →
      d.ledIndexFromXY (n % d.ledsPerRow) (n / d.ledsPerRow) = n) ∧
    (construct 10 5 false true).ledIndexFromXY (5 % 5) (5 / 5) ≠ 5 := by
  have hn' : n % 65536 = n := Nat.mod_eq_of_lt hn
  refine ⟨by simp only [p44_ws2812.setColor, hn'],
          by simp only [p44_ws2812.setColorDimmed, hn'],
          by simp only [p44_ws2812.getColor, hn'], ?_, by decide⟩
  intro hrev halt
  have hx : n % d.ledsPerRow < 65536 := lt_of_le_of_lt (Nat.mod_le _ _) hn
  have hy : n / d.ledsPerRow < 65536 := lt_of_le_of_lt (Nat.div_le_self _ _) hn
  have hbase : d.ledsPerRow * (n / d.ledsPerRow) + n % d.ledsPerRow = n :=
    Nat.div_add_mod n d.ledsPerRow
  simp [p44_ws2812.ledIndexFromXY, hrev, halt, Nat.mod_eq_of_lt hx,
    Nat.mod_eq_of_lt hy]
  have hcomm : n / d.ledsPerRow * d.ledsPerRow = d.ledsPerRow * (n / d.ledsPerRow) :=
    Nat.mul_comm _ _
  omega

/-- Witness for C6: with rowLength=3 and all flags off, flat number 4
    resolves back to physical index 4. -/
theorem flat_ops_row_major_witness :
    (construct 6 3 false false).ledIndexFromXY
      (4 % (construct 6 3 false false).ledsPerRow)
      (4 / (construct 6 3 false false).ledsPerRow) = 4 :=
  (flat_ops_row_major (construct 6 3 false false) 4 1 2 3 4 9 9 9
    (by decide) (by decide)).2.2.2.1 rfl rfl

/-- C7: setColorDimmed/setColorDimmedXY store exactly what
    setColor/setColorXY store for the pre-scaled triplet
    ((r*br) >> 8, (g*br) >> 8, (b*br) >> 8) — a linear fixed-point
    scaling; the pwmTable plays no part in storage. -/
theorem setColorDimmed_prescales (d : p44_ws2812) (x y n r g b br : Nat)
    (hr : r < 256) (hg : g < 256) (hb : b < 256) (hbr : br < 256) :
    d.setColorDimmedXY x y r g b br =
      d.setColorXY x y (r * br / 256) (g * br / 256) (b * br / 256) ∧
    d.setColorDimmed n r g b br =
      d.setColor n (r * br / 256) (g * br / 256) (b * br / 256) := by
  constructor
  · simp only [p44_ws2812.setColorDimmedXY, Nat.mod_eq_of_lt hr,
      Nat.mod_eq_of_lt hg, Nat.mod_eq_of_lt hb, Nat.mod_eq_of_lt hbr]
  · simp only [p44_ws2812.setColorDimmed, p44_ws2812.setColor,
      p44_ws2812.setColorDimmedXY, Nat.mod_eq_of_lt hr,
      Nat.mod_eq_of_lt hg, Nat.mod_eq_of_lt hb, Nat.mod_eq_of_lt hbr]

/-- Witness for C7 at a concrete driver, triplet and brightness. -/
theorem setColorDimmed_prescales_witness :
    (construct 4 2 false false).setColorDimmedXY 0 0 200 100 50 128 =
      (construct 4 2 false false).setColorXY 0 0 (200 * 128 / 256)
        (100 * 128 / 256) (50 * 128 / 256) :=
  (setColorDimmed_prescales (construct 4 2 false false) 0 0 1 200 100 50 128
    (by decide) (by decide) (by decide) (by decide)).1

/-- C8: the pwmTable maps level 0 to duty 0, level 31 to duty 255, and
    is monotonically non-decreasing over all 32 valid inputs. -/
theorem pwmTable_endpoints_monotone (i j : Nat) (hij : i ≤ j) (hj : j < 32) :
    pwmLookup 0 = 0 ∧ pwmLookup 31 = 255 ∧ pwmLookup i ≤ pwmLookup j := by
  refine ⟨by decide, by decide, ?_⟩
  exact pwm_mono j hj i (lt_of_le_of_lt hij hj) hij

/-- Witness for C8 at levels 3 ≤ 5. -/
theorem pwmTable_endpoints_monotone_witness :
    pwmLookup 0 = 0 ∧ pwmLookup 31 = 255 ∧ pwmLookup 3 ≤ pwmLookup 5 :=
  pwmTable_endpoints_monotone 3 5 (by decide) (by decide)

/-- C9: immediately after construction every stored pixel is zero, so
    getColorXY/getColor on any coordinate or index whose resolved
    physical index is in range returns (0,0,0). -/
theorem construct_zero_init (aN aL x y m a0 g0 b0 : Nat) (rv alt : Bool)
    (hxy : (construct aN aL rv alt).ledIndexFromXY x y <
      (construct aN aL rv alt).numLeds)
    (hm : (construct aN aL rv alt).ledIndexFromXY
        (m % 65536 % (construct aN aL rv alt).ledsPerRow)
        (m % 65536 / (construct aN aL rv alt).ledsPerRow) <
      (construct aN aL rv alt).numLeds) :
    (construct aN aL rv alt).getColorXY x y a0 g0 b0 = (0, 0, 0) ∧
    (construct aN aL rv alt).getColor m a0 g0 b0 = (0, 0, 0) := by
  have hbuf : (construct aN aL rv alt).pixelBuffer =
      List.replicate (aN % 65536) zeroPixel := rfl
  have hnum : (construct aN aL rv alt).numLeds = aN % 65536 := rfl
  constructor
  · simp only [p44_ws2812.getColorXY]
    rw [if_neg (not_le.mpr hxy)]
    rw [hbuf, List.getD_eq_getElem _ _ (by rw [List.length_replicate]; omega),
      List.getElem_replicate]
    rfl
  · simp only [p44_ws2812.getColor, p44_ws2812.getColorXY]
    rw [if_neg (not_le.mpr hm)]
    rw [hbuf, List.getD_eq_getElem _ _ (by rw [List.length_replicate]; omega),
      List.getElem_replicate]
    rfl

/-- Witness for C9: a fresh 4-LED driver reads (0,0,0) at coordinate
    (1,1) and at flat index 3. -/
theorem construct_zero_init_witness :
    (construct 4 2 false false).getColorXY 1 1 7 8 9 = (0, 0, 0) ∧
    (construct 4 2 false false).getColor 3 7 8 9 = (0, 0, 0) :=
  construct_zero_init 4 2 1 1 3 7 8 9 false false (by decide) (by decide)

/-- C10: the constructor replaces a rowLength argument of 0 by the LED
    count, so for a positive (uint16-representable) LED count the stored
    rowLength is always positive and the row-major division/modulo of
    the flat-index operations never divide by zero. -/
theorem construct_rowLength_pos (aN aL : Nat) (rv alt : Bool)
    (h0 : 0 < aN) (h16 : aN < 65536) :
    (construct aN 0 rv alt).ledsPerRow = (construct aN 0 rv alt).numLeds ∧
    0 < (construct aN aL rv alt).ledsPerRow := by
  constructor
  · simp [p44_ws2812.construct]
  · have hls : (construct aN aL rv alt).ledsPerRow =
        if aL % 65536 = 0 then aN % 65536 else aL % 65536 := rfl
    rw [hls]
    by_cases h : aL % 65536 = 0
    · rw [if_pos h, Nat.mod_eq_of_lt h16]
      exact h0
    · rw [if_neg h]
      exact Nat.pos_of_ne_zero h

/-- Witness for C10 with 4 LEDs and rowLength arguments 0 and 2. -/
theorem construct_rowLength_pos_witness :
    (construct 4 0 false false).ledsPerRow = (construct 4 0 false false).numLeds ∧
    0 < (construct 4 2 false false).ledsPerRow :=
  construct_rowLength_pos 4 2 false false (by decide) (by decide)

end WS2812
